import Mathlib

/-!
# Doris BE: `KafkaConsumerPipeReader` and `BrokerFileReader`

A shallow embedding of

* `be/src/runtime/routine_load/kafka_consumer_pipe_reader.h`
  (`append_with_line_delimiter`, `append_json`, the constructor), and
* `be/src/io/fs/broker_file_reader.h`
  (the fields, `path`, `size`, `closed`; `close` and `read_at` are only declared there),

followed by the properties proved about them.

Conventions.  A `(const char* data, size_t size)` argument pair is the list of the `size`
bytes starting at `data`.  A member function that may mutate the object takes the object
state and returns the new one next to its result.  The calling thread is the only one that
runs: a call that would wait on another thread has no result (`none`).
-/

namespace doris

/-- One byte (`char`). -/
abbrev Byte := Fin 256

/-- The byte of the C++ character `'\n'`. -/
def newline : Byte := 10

/-- The bytes `size` reads out of the string literal `"\n"` when `size = 1`. -/
def line_delimiter : List Byte := [newline]

/-- Modelled from the spec: the error taxonomy of `Status` (the header `common/status.h` is
not among the sources).  `Closed` is the status of an append on a pipe that left `OPEN`. -/
inductive ErrorCode where
  | NetworkError
  | RemoteProtocolError
  | AlreadyClosed
  | ContractViolation
  | Cancelled
  | Failed
  | Closed
  deriving DecidableEq

/-- Modelled from the spec: `Status`, either success or an error of the taxonomy. -/
inductive Status where
  | OK
  | Error (code : ErrorCode)
  deriving DecidableEq

/-- The member function `Status::ok()`. -/
def Status.ok : Status → Bool
  | Status.OK => true
  | Status.Error _ => false

namespace io

/-! ## The base class interface used by `KafkaConsumerPipeReader` -/

/-- The two producer-side member functions of the base class `StreamLoadPipeReader` that
`KafkaConsumerPipeReader` calls, over an arbitrary object state `σ`.  Their bodies live in
`io/fs/stream_load_pipe_reader.h`, which is not among the sources, so they are parameters.
`none` is a call that never returns (the producer stays blocked). -/
structure StreamLoadPipeReader (σ : Type) where
  append : List Byte → σ → Option (Status × σ)
  append_and_flush : List Byte → σ → Option (Status × σ)

/-- The member function `KafkaConsumerPipeReader::append_with_line_delimiter(data, size)`:
```
Status st = append(data, size);
if (!st.ok()) { return st; }
st = append("\n", 1);
return st;
``` -/
def KafkaConsumerPipeReader.append_with_line_delimiter {σ : Type}
    (base : StreamLoadPipeReader σ) (data : List Byte) (s : σ) : Option (Status × σ) :=
  match base.append data s with
  | none => none
  | some (st, s1) =>
    if !st.ok then some (st, s1)
    else base.append line_delimiter s1

/-- The member function `KafkaConsumerPipeReader::append_json(data, size)`:
`return append_and_flush(data, size);` -/
def KafkaConsumerPipeReader.append_json {σ : Type}
    (base : StreamLoadPipeReader σ) (data : List Byte) (s : σ) : Option (Status × σ) :=
  base.append_and_flush data s

/-! ## Recording the calls made on the base class -/

/-- A call received by the base class, with its two arguments. -/
inductive Call where
  | append (data : List Byte) (size : Nat)
  | append_and_flush (data : List Byte) (size : Nat)
  deriving DecidableEq

/-- The base class `base` with a call log next to its state: every call that returns is
appended to the log, and behaves as `base` does. -/
def recording {σ : Type} (base : StreamLoadPipeReader σ) :
    StreamLoadPipeReader (σ × List Call) where
  append := fun data sl =>
    (base.append data sl.1).map
      (fun r => (r.1, (r.2, sl.2 ++ [Call.append data data.length])))
  append_and_flush := fun data sl =>
    (base.append_and_flush data sl.1).map
      (fun r => (r.1, (r.2, sl.2 ++ [Call.append_and_flush data data.length])))

/-! ## The pipe behind the base class, from the specification (single-threaded view) -/

/-- Modelled from the spec: the status field of the pipe, `OPEN`, `CLOSED` or `FAILED` with
the recorded error (the pipe is implemented in `io/fs/stream_load_pipe_reader.h`, which is
not among the sources). -/
inductive PipeStatus where
  | OPEN
  | CLOSED
  | FAILED (error : ErrorCode)
  deriving DecidableEq

/-- Modelled from the spec: one queued chunk; `flushed` marks a chunk enqueued by
`append_and_flush`, whose end is a boundary that draining never crosses. -/
structure Chunk where
  bytes : List Byte
  flushed : Bool
  deriving DecidableEq

/-- Modelled from the spec: the state of the bounded pipe: the ordered queue of chunks, the
running total of buffered and unconsumed bytes, the high-water mark, the low-water batching
hint, the status field and the consumption cursor. -/
structure BufferedPipe where
  queue : List Chunk
  buffered_bytes : Nat
  max_buffered_bytes : Nat
  min_chunk_size : Nat
  status : PipeStatus
  cursor : Nat
  deriving DecidableEq

/-- Modelled from the spec: the base-class constructor
`StreamLoadPipeReader(max_buffered_bytes, min_chunk_size)`: an open, empty pipe. -/
def BufferedPipe.create (max_buffered_bytes min_chunk_size : Nat) : BufferedPipe :=
  { queue := [], buffered_bytes := 0, max_buffered_bytes := max_buffered_bytes,
    min_chunk_size := min_chunk_size, status := PipeStatus.OPEN, cursor := 0 }

/-- The bytes still queued for the consumer, in delivery order. -/
def BufferedPipe.stream (p : BufferedPipe) : List Byte :=
  p.queue.flatMap Chunk.bytes

/-- Modelled from the spec: the common part of `append` and `append_and_flush`.  A pipe that
left `OPEN` fails the call (`Closed`, or the recorded error); an open pipe blocks the
producer while `buffered_bytes + len(data) > max_buffered_bytes` (no other thread runs, so
the call has no result); otherwise the data is enqueued as one chunk and `buffered_bytes`
grows by its length.  Waking the consumer, the only use of `min_chunk_size`, has no effect
on a single thread. -/
def BufferedPipe.enqueue (flushed : Bool) (data : List Byte) (p : BufferedPipe) :
    Option (Status × BufferedPipe) :=
  match p.status with
  | PipeStatus.FAILED e => some (Status.Error e, p)
  | PipeStatus.CLOSED => some (Status.Error ErrorCode.Closed, p)
  | PipeStatus.OPEN =>
    if p.buffered_bytes + data.length > p.max_buffered_bytes then none
    else some (Status.OK,
      { p with queue := p.queue ++ [{ bytes := data, flushed := flushed }],
               buffered_bytes := p.buffered_bytes + data.length })

/-- Modelled from the spec: `append(data)`. -/
def BufferedPipe.append (data : List Byte) (p : BufferedPipe) :
    Option (Status × BufferedPipe) :=
  BufferedPipe.enqueue false data p

/-- Modelled from the spec: `append_and_flush(data)`: as `append`, and the chunk is never
merged with a later one when drained. -/
def BufferedPipe.append_and_flush (data : List Byte) (p : BufferedPipe) :
    Option (Status × BufferedPipe) :=
  BufferedPipe.enqueue true data p

/-- Modelled from the spec: draining at most `n` bytes from the head of the queue.  Whole
chunks are taken in order while they fit; the drain stops after a flushed chunk, and a
chunk longer than what is still wanted is split, its rest staying at the head. -/
def BufferedPipe.drain : Nat → List Chunk → List Byte × List Chunk
  | _, [] => ([], [])
  | n, c :: rest =>
    if c.bytes.length ≤ n then
      if c.flushed then (c.bytes, rest)
      else
        let r := BufferedPipe.drain (n - c.bytes.length) rest
        (c.bytes ++ r.1, r.2)
    else (c.bytes.take n, { c with bytes := c.bytes.drop n } :: rest)

/-- Modelled from the spec: the consumer side `read_at(offset, buffer)` with
`buffer.length = n`.  The result is the status, the bytes written into the buffer and the
new pipe.  An offset other than the cursor is a contract violation; a failed pipe returns
the recorded error; an empty closed pipe returns 0 bytes with success; an empty open pipe
blocks the consumer (no result); otherwise bytes are drained and the cursor advances by
their number. -/
def BufferedPipe.read_at (offset n : Nat) (p : BufferedPipe) :
    Option ((Status × List Byte) × BufferedPipe) :=
  if offset ≠ p.cursor then some ((Status.Error ErrorCode.ContractViolation, []), p)
  else
    match p.status with
    | PipeStatus.FAILED e => some ((Status.Error e, []), p)
    | st =>
      match p.queue with
      | [] =>
        if st = PipeStatus.CLOSED then some ((Status.OK, []), p) else none
      | c :: rest =>
        let r := BufferedPipe.drain n (c :: rest)
        some ((Status.OK, r.1),
          { p with queue := r.2, buffered_bytes := p.buffered_bytes - r.1.length,
                   cursor := p.cursor + r.1.length })

/-- Modelled from the spec: `cancel(error)`: the pipe becomes `FAILED` with the recorded
error; a pipe that already failed keeps its first error. -/
def BufferedPipe.cancel (error : ErrorCode) (p : BufferedPipe) : BufferedPipe :=
  match p.status with
  | PipeStatus.FAILED _ => p
  | _ => { p with status := PipeStatus.FAILED error }

/-- The base class of `KafkaConsumerPipeReader` over the pipe of the specification. -/
def streaming : StreamLoadPipeReader BufferedPipe where
  append := BufferedPipe.append
  append_and_flush := BufferedPipe.append_and_flush

/-- The base class as seen by a producer whose peer cancels the load once `k` more calls
have returned: the state carries `k`, and with `k = 0` the cancel precedes the call. -/
def cancelled_after : StreamLoadPipeReader (BufferedPipe × Nat) where
  append := fun data pk =>
    match pk.2 with
    | 0 =>
      (BufferedPipe.append data (pk.1.cancel ErrorCode.Cancelled)).map
        (fun r => (r.1, (r.2, 0)))
    | k + 1 => (BufferedPipe.append data pk.1).map (fun r => (r.1, (r.2, k)))
  append_and_flush := fun data pk =>
    match pk.2 with
    | 0 =>
      (BufferedPipe.append_and_flush data
        (pk.1.cancel ErrorCode.Cancelled)).map (fun r => (r.1, (r.2, 0)))
    | k + 1 => (BufferedPipe.append_and_flush data pk.1).map (fun r => (r.1, (r.2, k)))

/-- Default of the constructor argument `max_buffered_bytes`. -/
def KafkaConsumerPipeReader.default_max_buffered_bytes : Nat := 1024 * 1024

/-- Default of the constructor argument `min_chunk_size`. -/
def KafkaConsumerPipeReader.default_min_chunk_size : Nat := 64 * 1024

/-- The constructor `KafkaConsumerPipeReader(max_buffered_bytes, min_chunk_size)
    : StreamLoadPipeReader(max_buffered_bytes, min_chunk_size) {}`. -/
def KafkaConsumerPipeReader.create (max_buffered_bytes min_chunk_size : Nat) :
    BufferedPipe :=
  BufferedPipe.create max_buffered_bytes min_chunk_size

/-! ## Producers and consumers used to state the framing properties -/

/-- A producer pushing `msgs` in order with `append_with_line_delimiter`; the result is the
final state when every call returned an ok status, and `none` otherwise. -/
def append_lines {σ : Type} (base : StreamLoadPipeReader σ) :
    List (List Byte) → σ → Option σ
  | [], s => some s
  | m :: ms, s =>
    match KafkaConsumerPipeReader.append_with_line_delimiter base m s with
    | some (st, s1) => if st.ok then append_lines base ms s1 else none
    | none => none

/-- The line-mode encoding of a list of messages: each message followed by one newline. -/
def line_framed (msgs : List (List Byte)) : List Byte :=
  msgs.flatMap (fun m => m ++ line_delimiter)

/-- The consumer's decoding of a line-framed stream: split at the newline bytes and drop
the final piece (the empty piece after the last newline). -/
def split_lines (stream : List Byte) : List (List Byte) :=
  (stream.splitOn newline).dropLast

/-- The property of a base class that its successful appends deliver bytes in FIFO order:
`delivered` reads the byte stream off the state, and an append that returns ok adds
exactly its bytes at the end. -/
def DeliversInOrder {σ : Type} (base : StreamLoadPipeReader σ)
    (delivered : σ → List Byte) : Prop :=
  ∀ (data : List Byte) (s : σ) (st : Status) (s1 : σ),
    base.append data s = some (st, s1) → st.ok = true → delivered s1 = delivered s ++ data

/-- The property of a base class that an append returning a failure enqueues nothing. -/
def FailedAppendKeeps {σ : Type} (base : StreamLoadPipeReader σ)
    (delivered : σ → List Byte) : Prop :=
  ∀ (data : List Byte) (s : σ) (st : Status) (s1 : σ),
    base.append data s = some (st, s1) → st.ok = false → delivered s1 = delivered s

/-! ## `BrokerFileReader` -/

/-- The type `Path` of the field `_path`. -/
abbrev Path := String

/-- The thrift type `TNetworkAddress`: host name and port. -/
structure TNetworkAddress where
  hostname : String
  port : Nat
  deriving DecidableEq

/-- The thrift type `TBrokerFD`, the remote file handle issued by the broker. -/
structure TBrokerFD where
  high : Int
  low : Int
  deriving DecidableEq

/-- The fields of `BrokerFileReader`; `_fs` is the address held by the pointer. -/
structure BrokerFileReader where
  _path : Path
  _file_size : Nat
  _broker_addr : TNetworkAddress
  _fd : TBrokerFD
  _fs : Nat
  _closed : Bool
  deriving DecidableEq

/-- The constructor `BrokerFileReader(broker_addr, path, file_size, fd, fs)`, declared in
the header: each field takes the argument of its name, and `_closed` takes its default
member initializer `false`. -/
def BrokerFileReader.create (broker_addr : TNetworkAddress) (path : Path) (file_size : Nat)
    (fd : TBrokerFD) (fs : Nat) : BrokerFileReader :=
  { _path := path, _file_size := file_size, _broker_addr := broker_addr, _fd := fd,
    _fs := fs, _closed := false }

/-- The observer `const Path& path() const override { return _path; }`. -/
def BrokerFileReader.path (r : BrokerFileReader) : Path := r._path

/-- The observer `size_t size() const override { return _file_size; }`. -/
def BrokerFileReader.size (r : BrokerFileReader) : Nat := r._file_size

/-- The observer
`bool closed() const override { return _closed.load(std::memory_order_acquire); }`. -/
def BrokerFileReader.closed (r : BrokerFileReader) : Bool := r._closed

/-- A call of a `const` member function `f` on the reader `r`: its value, and the reader
after the call. -/
def BrokerFileReader.observe {α : Type} (f : BrokerFileReader → α) (r : BrokerFileReader) :
    α × BrokerFileReader :=
  (f r, r)

/-- A request sent to the broker service. -/
inductive BrokerRpc where
  | pread (fd : TBrokerFD) (offset length : Nat)
  | release (fd : TBrokerFD)
  deriving DecidableEq

/-- Whether a request is a release of a handle. -/
def BrokerRpc.isRelease : BrokerRpc → Bool
  | BrokerRpc.release _ => true
  | BrokerRpc.pread _ _ _ => false

/-- Whether a request is a remote read. -/
def BrokerRpc.isPread : BrokerRpc → Bool
  | BrokerRpc.pread _ _ _ => true
  | BrokerRpc.release _ => false

/-- Modelled from the spec: the broker collaborator, by its answers:
`pread(handle, offset, length) -> bytes` or an error, `release(handle) -> status`.  A read
returns at most the `length` bytes it was asked for (it may return fewer: a short read). -/
structure BrokerService where
  pread : TBrokerFD → Nat → Nat → Except ErrorCode (List Byte)
  release : TBrokerFD → Status
  pread_length : ∀ (fd : TBrokerFD) (offset length : Nat) (bytes : List Byte),
    pread fd offset length = Except.ok bytes → bytes.length ≤ length

/-- Modelled from the spec: `BrokerFileReader::close()` (declared in the header, defined in
`broker_file_reader.cpp`, which is not among the sources).  The result is the status, the
reader and the log of requests sent.  An open reader becomes closed, sends one release of
its handle and reports the status of that release; a closed reader returns success and
sends nothing. -/
def BrokerFileReader.close (broker : BrokerService)
    (rl : BrokerFileReader × List BrokerRpc) : Status × BrokerFileReader × List BrokerRpc :=
  if rl.1._closed then (Status.OK, rl.1, rl.2)
  else (broker.release rl.1._fd, { rl.1 with _closed := true },
        rl.2 ++ [BrokerRpc.release rl.1._fd])

/-- Modelled from the spec: `close()` called `n` times in a row: the statuses returned, in
order, then the reader and the log of requests. -/
def BrokerFileReader.close_n (broker : BrokerService) :
    Nat → BrokerFileReader × List BrokerRpc → List Status × BrokerFileReader × List BrokerRpc
  | 0, rl => ([], rl.1, rl.2)
  | n + 1, rl =>
    let c := BrokerFileReader.close broker rl
    let r := BrokerFileReader.close_n broker n (c.2.1, c.2.2)
    (c.1 :: r.1, r.2.1, r.2.2)

/-- Modelled from the spec: `BrokerFileReader::read_at(offset, result, io_ctx, bytes_read)`
with `result.size = length` (declared in the header, defined in `broker_file_reader.cpp`,
which is not among the sources).  The result is the status, the bytes copied into the
buffer (`bytes_read` is their number) and the log of requests sent.  A closed reader fails
with `AlreadyClosed`; `offset >= size()` returns 0 bytes and success; otherwise one remote
read of `min(length, size() - offset)` bytes is sent, the bytes the broker returned (never
more than requested, so they fit the buffer) are copied and counted, and an error of the
broker is returned as it is. -/
def BrokerFileReader.read_at (broker : BrokerService) (offset length : Nat)
    (rl : BrokerFileReader × List BrokerRpc) : (Status × List Byte) × List BrokerRpc :=
  if rl.1._closed then ((Status.Error ErrorCode.AlreadyClosed, []), rl.2)
  else if offset ≥ rl.1.size then ((Status.OK, []), rl.2)
  else
    let bytes_req := min length (rl.1.size - offset)
    let sent := rl.2 ++ [BrokerRpc.pread rl.1._fd offset bytes_req]
    match broker.pread rl.1._fd offset bytes_req with
    | Except.ok bytes => ((Status.OK, bytes), sent)
    | Except.error e => ((Status.Error e, []), sent)

/-! ## Brokers and a reader used in the examples -/

/-- A broker that answers every read with `length` zero bytes and releases handles. -/
def zero_broker : BrokerService where
  pread := fun _ _ length => Except.ok (List.replicate length 0)
  release := fun _ => Status.OK
  pread_length := fun _ _ length bytes h => by
    rw [Except.ok.injEq] at h
    rw [← h, List.length_replicate]

/-- A broker that cannot be reached: every request fails with `NetworkError`. -/
def unreachable_broker : BrokerService where
  pread := fun _ _ _ => Except.error ErrorCode.NetworkError
  release := fun _ => Status.Error ErrorCode.NetworkError
  pread_length := fun _ _ _ _ h => by simp at h

/-- A freshly constructed reader of a file of 100 bytes. -/
def sample_reader : BrokerFileReader :=
  BrokerFileReader.create { hostname := "broker", port := 8000 } "/data/part-0" 100
    { high := 0, low := 7 } 0

/-! ## Helper lemmas on the pipe of the specification -/

theorem BufferedPipe.enqueue_ok_stream (flushed : Bool) (data : List Byte)
    (p p1 : BufferedPipe) (st : Status)
    (h : BufferedPipe.enqueue flushed data p = some (st, p1)) (hok : st.ok = true) :
    p1.stream = p.stream ++ data := by
  unfold BufferedPipe.enqueue at h
  split at h
  · simp only [Option.some.injEq, Prod.mk.injEq] at h
    obtain ⟨rfl, rfl⟩ := h
    simp [Status.ok] at hok
  · simp only [Option.some.injEq, Prod.mk.injEq] at h
    obtain ⟨rfl, rfl⟩ := h
    simp [Status.ok] at hok
  · split at h
    · simp at h
    · simp only [Option.some.injEq, Prod.mk.injEq] at h
      obtain ⟨rfl, rfl⟩ := h
      simp [BufferedPipe.stream]

theorem BufferedPipe.enqueue_failed_same (flushed : Bool) (data : List Byte)
    (p p1 : BufferedPipe) (st : Status)
    (h : BufferedPipe.enqueue flushed data p = some (st, p1)) (hfail : st.ok = false) :
    p1 = p := by
  unfold BufferedPipe.enqueue at h
  split at h
  · simp only [Option.some.injEq, Prod.mk.injEq] at h
    exact h.2.symm
  · simp only [Option.some.injEq, Prod.mk.injEq] at h
    exact h.2.symm
  · split at h
    · simp at h
    · simp only [Option.some.injEq, Prod.mk.injEq] at h
      obtain ⟨rfl, rfl⟩ := h
      simp [Status.ok] at hfail

theorem streaming_deliversInOrder : DeliversInOrder streaming BufferedPipe.stream := by
  intro data s st s1 h hok
  exact BufferedPipe.enqueue_ok_stream false data s s1 st h hok

theorem streaming_failedAppendKeeps : FailedAppendKeeps streaming BufferedPipe.stream := by
  intro data s st s1 h hfail
  rw [BufferedPipe.enqueue_failed_same false data s s1 st h hfail]

theorem BufferedPipe.cancel_stream (e : ErrorCode) (p : BufferedPipe) :
    (p.cancel e).stream = p.stream := by
  unfold BufferedPipe.cancel
  split <;> rfl

theorem cancelled_after_append_cases (data : List Byte) (pk pk1 : BufferedPipe × Nat)
    (st : Status) (h : cancelled_after.append data pk = some (st, pk1)) :
    ∃ q : BufferedPipe, q.stream = pk.1.stream ∧
      BufferedPipe.enqueue false data q = some (st, pk1.1) := by
  obtain ⟨p, k⟩ := pk
  cases k with
  | zero =>
    have h1 : (BufferedPipe.enqueue false data (p.cancel ErrorCode.Cancelled)).map
        (fun r => (r.1, (r.2, 0))) = some (st, pk1) := h
    cases hr : BufferedPipe.enqueue false data (p.cancel ErrorCode.Cancelled) with
    | none => rw [hr] at h1; simp at h1
    | some r =>
      rw [hr] at h1
      simp only [Option.map_some', Option.some.injEq, Prod.mk.injEq] at h1
      obtain ⟨rfl, rfl⟩ := h1
      exact ⟨p.cancel ErrorCode.Cancelled, BufferedPipe.cancel_stream _ p, hr⟩
  | succ k =>
    have h1 : (BufferedPipe.enqueue false data p).map
        (fun r => (r.1, (r.2, k))) = some (st, pk1) := h
    cases hr : BufferedPipe.enqueue false data p with
    | none => rw [hr] at h1; simp at h1
    | some r =>
      rw [hr] at h1
      simp only [Option.map_some', Option.some.injEq, Prod.mk.injEq] at h1
      obtain ⟨rfl, rfl⟩ := h1
      exact ⟨p, rfl, hr⟩

theorem cancelled_after_deliversInOrder :
    DeliversInOrder cancelled_after (fun pk => pk.1.stream) := by
  intro data s st s1 h hok
  obtain ⟨q, hq, hr⟩ := cancelled_after_append_cases data s s1 st h
  have := BufferedPipe.enqueue_ok_stream false data q s1.1 st hr hok
  simp only [this, hq]

theorem cancelled_after_failedAppendKeeps :
    FailedAppendKeeps cancelled_after (fun pk => pk.1.stream) := by
  intro data s st s1 h hfail
  obtain ⟨q, hq, hr⟩ := cancelled_after_append_cases data s s1 st h
  have := BufferedPipe.enqueue_failed_same false data q s1.1 st hr hfail
  simp only [this, hq]

/-! ## Helper lemmas on line framing -/

theorem append_with_line_delimiter_ok_delivered {σ : Type}
    (base : StreamLoadPipeReader σ) (delivered : σ → List Byte)
    (hfifo : DeliversInOrder base delivered) (m : List Byte) (s s1 : σ) (st : Status)
    (h : KafkaConsumerPipeReader.append_with_line_delimiter base m s = some (st, s1))
    (hok : st.ok = true) : delivered s1 = delivered s ++ (m ++ line_delimiter) := by
  unfold KafkaConsumerPipeReader.append_with_line_delimiter at h
  cases hp : base.append m s with
  | none => simp [hp] at h
  | some r =>
    obtain ⟨st0, s0⟩ := r
    simp only [hp] at h
    by_cases h0 : st0.ok = true
    · simp only [h0, Bool.not_true, Bool.false_eq_true, if_false] at h
      rw [hfifo line_delimiter s0 st s1 h hok, hfifo m s st0 s0 hp h0, List.append_assoc]
    · simp only [Bool.not_eq_true] at h0
      simp only [h0, Bool.not_false, if_true, Option.some.injEq, Prod.mk.injEq] at h
      rw [← h.1, h0] at hok
      exact absurd hok (by decide)

theorem append_lines_delivered {σ : Type}
    (base : StreamLoadPipeReader σ) (delivered : σ → List Byte)
    (hfifo : DeliversInOrder base delivered) (msgs : List (List Byte)) (s s1 : σ)
    (hrun : append_lines base msgs s = some s1) :
    delivered s1 = delivered s ++ line_framed msgs := by
  induction msgs generalizing s with
  | nil =>
    simp only [append_lines, Option.some.injEq] at hrun
    simp [line_framed, hrun]
  | cons m ms ih =>
    simp only [append_lines] at hrun
    cases hc : KafkaConsumerPipeReader.append_with_line_delimiter base m s with
    | none => simp [hc] at hrun
    | some r =>
      obtain ⟨st, s0⟩ := r
      simp only [hc] at hrun
      by_cases hst : st.ok = true
      · simp only [hst, if_true] at hrun
        rw [ih s0 hrun,
          append_with_line_delimiter_ok_delivered base delivered hfifo m s s0 st hc hst]
        simp [line_framed]
      · simp [hst] at hrun

theorem splitOn_line_framed (msgs : List (List Byte))
    (hnl : ∀ m ∈ msgs, newline ∉ m) :
    (line_framed msgs).splitOn newline = msgs ++ [[]] := by
  induction msgs with
  | nil => rfl
  | cons m ms ih =>
    have hm : ∀ x ∈ m, ¬ ((x == newline) = true) := by
      intro x hx hxe
      have : x = newline := by simpa using hxe
      exact hnl m (List.mem_cons_self m ms) (this ▸ hx)
    have hrest := ih (fun l hl => hnl l (List.mem_cons_of_mem m hl))
    have hsplit : line_framed (m :: ms) = m ++ newline :: line_framed ms := by
      simp [line_framed, line_delimiter]
    rw [List.splitOn] at hrest
    rw [hsplit, List.splitOn,
      List.splitOnP_first (fun x => x == newline) m hm newline (by simp), hrest,
      List.cons_append]

theorem split_lines_line_framed (msgs : List (List Byte))
    (hnl : ∀ m ∈ msgs, newline ∉ m) : split_lines (line_framed msgs) = msgs := by
  rw [split_lines, splitOn_line_framed msgs hnl, List.dropLast_concat]

/-! ## Helper lemmas on `BrokerFileReader` -/

theorem BrokerFileReader.close_n_closed (broker : BrokerService) (n : Nat)
    (r : BrokerFileReader) (log : List BrokerRpc) (hclosed : r._closed = true) :
    BrokerFileReader.close_n broker n (r, log) = (List.replicate n Status.OK, r, log) := by
  induction n with
  | zero => rfl
  | succ k ih =>
    simp only [BrokerFileReader.close_n, BrokerFileReader.close, hclosed, if_true, ih,
      List.replicate_succ]

/-! ## `KafkaConsumerPipeReader`: the two framing helpers -/

/-- C1: when the underlying `append(data, size)` returns a status that is not ok,
`append_with_line_delimiter` returns exactly that status together with the state the
failed append left, and the base class has received that one call only: the newline
delimiter is not appended. -/
theorem append_with_line_delimiter_payload_failure {σ : Type}
    (base : StreamLoadPipeReader σ) (data : List Byte) (s s1 : σ) (st : Status)
    (log : List Call)
    (hcall : base.append data s = some (st, s1)) (hfail : st.ok = false) :
    KafkaConsumerPipeReader.append_with_line_delimiter base data s = some (st, s1) ∧
    KafkaConsumerPipeReader.append_with_line_delimiter (recording base) data (s, log)
      = some (st, (s1, log ++ [Call.append data data.length])) := by
  constructor
  · simp [KafkaConsumerPipeReader.append_with_line_delimiter, hcall, hfail]
  · simp [KafkaConsumerPipeReader.append_with_line_delimiter, recording, hcall, hfail]

/-- Witness of C1: on a cancelled pipe of the specification the payload append fails with
`Cancelled`; the helper returns that status, leaves the pipe as it was and makes one call. -/
theorem append_with_line_delimiter_payload_failure_witness :
    KafkaConsumerPipeReader.append_with_line_delimiter streaming [1, 2]
        ((BufferedPipe.create 10 4).cancel ErrorCode.Cancelled)
      = some (Status.Error ErrorCode.Cancelled,
              (BufferedPipe.create 10 4).cancel ErrorCode.Cancelled) ∧
    KafkaConsumerPipeReader.append_with_line_delimiter (recording streaming) [1, 2]
        ((BufferedPipe.create 10 4).cancel ErrorCode.Cancelled, [])
      = some (Status.Error ErrorCode.Cancelled,
              ((BufferedPipe.create 10 4).cancel ErrorCode.Cancelled,
               [] ++ [Call.append [1, 2] [1, 2].length])) :=
  append_with_line_delimiter_payload_failure streaming [1, 2]
    ((BufferedPipe.create 10 4).cancel ErrorCode.Cancelled)
    ((BufferedPipe.create 10 4).cancel ErrorCode.Cancelled)
    (Status.Error ErrorCode.Cancelled) [] (by decide) (by decide)

/-- C2: when the underlying `append(data, size)` returns ok, the rest of
`append_with_line_delimiter` is exactly one more call, `append` of the single byte `0x0A`
with size 1, made on the state the first call left: the helper returns what that second
call returns (and does not return if it does not), and the base class has received
exactly these two calls, in this order. -/
theorem append_with_line_delimiter_two_calls {σ : Type}
    (base : StreamLoadPipeReader σ) (data : List Byte) (s s1 : σ) (st : Status)
    (log : List Call)
    (hcall : base.append data s = some (st, s1)) (hok : st.ok = true) :
    KafkaConsumerPipeReader.append_with_line_delimiter base data s
      = base.append [(10 : Byte)] s1 ∧
    KafkaConsumerPipeReader.append_with_line_delimiter (recording base) data (s, log)
      = (base.append [(10 : Byte)] s1).map (fun r =>
          (r.1, (r.2, log ++ [Call.append data data.length, Call.append [(10 : Byte)] 1])))
    := by
  constructor
  · simp [KafkaConsumerPipeReader.append_with_line_delimiter, hcall, hok, line_delimiter,
      newline]
  · simp only [KafkaConsumerPipeReader.append_with_line_delimiter, recording, hcall, hok,
      line_delimiter, newline, Option.map_some']
    cases base.append [(10 : Byte)] s1 <;> simp

/-- Witness of C2: on a fresh pipe of the specification the payload `"abc"` is appended,
then the newline; the helper returns what the newline append returns. -/
theorem append_with_line_delimiter_two_calls_witness :
    KafkaConsumerPipeReader.append_with_line_delimiter streaming [97, 98, 99]
        (KafkaConsumerPipeReader.create 10 4)
      = streaming.append [(10 : Byte)]
          { queue := [{ bytes := [97, 98, 99], flushed := false }], buffered_bytes := 3,
            max_buffered_bytes := 10, min_chunk_size := 4, status := PipeStatus.OPEN,
            cursor := 0 } ∧
    KafkaConsumerPipeReader.append_with_line_delimiter (recording streaming) [97, 98, 99]
        (KafkaConsumerPipeReader.create 10 4, [])
      = (streaming.append [(10 : Byte)]
          { queue := [{ bytes := [97, 98, 99], flushed := false }], buffered_bytes := 3,
            max_buffered_bytes := 10, min_chunk_size := 4, status := PipeStatus.OPEN,
            cursor := 0 }).map (fun r =>
          (r.1, (r.2, [] ++ [Call.append [97, 98, 99] [(97 : Byte), 98, 99].length,
                             Call.append [(10 : Byte)] 1]))) :=
  append_with_line_delimiter_two_calls streaming [97, 98, 99]
    (KafkaConsumerPipeReader.create 10 4)
    { queue := [{ bytes := [97, 98, 99], flushed := false }], buffered_bytes := 3,
      max_buffered_bytes := 10, min_chunk_size := 4, status := PipeStatus.OPEN,
      cursor := 0 }
    Status.OK [] (by decide) (by decide)

/-- C4: `append_json` is `append_and_flush`: for every payload and state it returns what
`append_and_flush(data, size)` returns on the same arguments (status and resulting state,
or no return at all), and the base class has received exactly that one call: no plain
`append`, hence no delimiter byte. -/
theorem append_json_is_append_and_flush {σ : Type}
    (base : StreamLoadPipeReader σ) (data : List Byte) (s : σ) (log : List Call) :
    KafkaConsumerPipeReader.append_json base data s = base.append_and_flush data s ∧
    KafkaConsumerPipeReader.append_json (recording base) data (s, log)
      = (base.append_and_flush data s).map (fun r =>
          (r.1, (r.2, log ++ [Call.append_and_flush data data.length]))) :=
  ⟨rfl, rfl⟩

/-- C9: `append_with_line_delimiter` is not atomic.  When the payload append returns ok
and the following one-byte delimiter append returns a failure, the helper returns that
failure with the state the two calls left: the base class has received these two calls and
no other (nothing is rolled back), so on a FIFO pipe whose failed appends enqueue nothing
the payload is in the stream, without a newline after it. -/
theorem append_with_line_delimiter_not_atomic {σ : Type}
    (base : StreamLoadPipeReader σ) (data : List Byte) (s s1 s2 : σ) (st1 st2 : Status)
    (log : List Call)
    (hpayload : base.append data s = some (st1, s1)) (hok : st1.ok = true)
    (hdelim : base.append line_delimiter s1 = some (st2, s2)) (hfail : st2.ok = false) :
    KafkaConsumerPipeReader.append_with_line_delimiter base data s = some (st2, s2) ∧
    KafkaConsumerPipeReader.append_with_line_delimiter (recording base) data (s, log)
      = some (st2, (s2, log ++ [Call.append data data.length,
                                Call.append line_delimiter 1])) ∧
    (∀ delivered : σ → List Byte, DeliversInOrder base delivered →
      FailedAppendKeeps base delivered → delivered s2 = delivered s ++ data) := by
  refine ⟨?_, ?_, ?_⟩
  · simp [KafkaConsumerPipeReader.append_with_line_delimiter, hpayload, hok, hdelim]
  · have hdelim1 : base.append [newline] s1 = some (st2, s2) := hdelim
    simp [KafkaConsumerPipeReader.append_with_line_delimiter, recording, hpayload, hok,
      hdelim1, line_delimiter]
  · intro delivered hfifo hkeep
    rw [hkeep line_delimiter s1 st2 s2 hdelim hfail, hfifo data s st1 s1 hpayload hok]

/-- Witness of C9: the peer cancels the load after the payload append has returned: the
helper reports `Cancelled`, and `"abc"` is queued with no newline after it. -/
theorem append_with_line_delimiter_not_atomic_witness :
    KafkaConsumerPipeReader.append_with_line_delimiter cancelled_after [97, 98, 99]
        (KafkaConsumerPipeReader.create 10 4, 1)
      = some (Status.Error ErrorCode.Cancelled,
          ({ queue := [{ bytes := [97, 98, 99], flushed := false }], buffered_bytes := 3,
             max_buffered_bytes := 10, min_chunk_size := 4,
             status := PipeStatus.FAILED ErrorCode.Cancelled, cursor := 0 }, 0)) ∧
    BufferedPipe.stream
        { queue := [{ bytes := [97, 98, 99], flushed := false }], buffered_bytes := 3,
          max_buffered_bytes := 10, min_chunk_size := 4,
          status := PipeStatus.FAILED ErrorCode.Cancelled, cursor := 0 }
      = (KafkaConsumerPipeReader.create 10 4).stream ++ [97, 98, 99] :=
  have h := append_with_line_delimiter_not_atomic cancelled_after
    [97, 98, 99] (KafkaConsumerPipeReader.create 10 4, 1)
    ({ queue := [{ bytes := [97, 98, 99], flushed := false }], buffered_bytes := 3,
       max_buffered_bytes := 10, min_chunk_size := 4, status := PipeStatus.OPEN,
       cursor := 0 }, 0)
    ({ queue := [{ bytes := [97, 98, 99], flushed := false }], buffered_bytes := 3,
       max_buffered_bytes := 10, min_chunk_size := 4,
       status := PipeStatus.FAILED ErrorCode.Cancelled, cursor := 0 }, 0)
    Status.OK (Status.Error ErrorCode.Cancelled) []
    (by decide) (by decide) (by decide) (by decide)
  ⟨h.1, h.2.2 (fun pk => pk.1.stream) cancelled_after_deliversInOrder
    cancelled_after_failedAppendKeeps⟩

/-- C3: for every finite list of messages (empty messages included) pushed with
`append_with_line_delimiter` onto a pipe whose successful appends deliver bytes in FIFO
order, if every call succeeds then the stream has grown by exactly
`m1 ++ "\n" ++ m2 ++ "\n" ++ ... ++ mn ++ "\n"`: each message followed by one newline
byte `0x0A`, nothing else inserted. -/
theorem append_lines_stream {σ : Type}
    (base : StreamLoadPipeReader σ) (delivered : σ → List Byte)
    (hfifo : DeliversInOrder base delivered) (msgs : List (List Byte)) (s s1 : σ)
    (hrun : append_lines base msgs s = some s1) :
    delivered s1 = delivered s ++ line_framed msgs ∧
    line_framed [] = [] ∧
    (∀ (m : List Byte) (ms : List (List Byte)),
      line_framed (m :: ms) = m ++ [(10 : Byte)] ++ line_framed ms) := by
  refine ⟨append_lines_delivered base delivered hfifo msgs s s1 hrun, rfl, ?_⟩
  intro m ms
  simp [line_framed, line_delimiter, newline]

/-- Witness of C3: `"abc"` then `"de"` on a fresh reader with the default sizes: both calls
succeed, the stream is the 7 bytes `"abc\nde\n"`, and a consumer reading 7 bytes at
offset 0 receives them. -/
theorem append_lines_stream_witness :
    append_lines streaming [[97, 98, 99], [100, 101]]
        (KafkaConsumerPipeReader.create KafkaConsumerPipeReader.default_max_buffered_bytes
          KafkaConsumerPipeReader.default_min_chunk_size)
      = some
        { queue := [{ bytes := [97, 98, 99], flushed := false },
                    { bytes := [10], flushed := false },
                    { bytes := [100, 101], flushed := false },
                    { bytes := [10], flushed := false }],
          buffered_bytes := 7, max_buffered_bytes := 1048576, min_chunk_size := 65536,
          status := PipeStatus.OPEN, cursor := 0 } ∧
    BufferedPipe.stream
        { queue := [{ bytes := [97, 98, 99], flushed := false },
                    { bytes := [10], flushed := false },
                    { bytes := [100, 101], flushed := false },
                    { bytes := [10], flushed := false }],
          buffered_bytes := 7, max_buffered_bytes := 1048576, min_chunk_size := 65536,
          status := PipeStatus.OPEN, cursor := 0 }
      = [97, 98, 99, 10, 100, 101, 10] ∧
    (BufferedPipe.read_at 0 7
        { queue := [{ bytes := [97, 98, 99], flushed := false },
                    { bytes := [10], flushed := false },
                    { bytes := [100, 101], flushed := false },
                    { bytes := [10], flushed := false }],
          buffered_bytes := 7, max_buffered_bytes := 1048576, min_chunk_size := 65536,
          status := PipeStatus.OPEN, cursor := 0 }).map (fun r => r.1)
      = some (Status.OK, [97, 98, 99, 10, 100, 101, 10]) :=
  ⟨by decide,
   (append_lines_stream streaming BufferedPipe.stream streaming_deliversInOrder
      [[97, 98, 99], [100, 101]]
      (KafkaConsumerPipeReader.create KafkaConsumerPipeReader.default_max_buffered_bytes
        KafkaConsumerPipeReader.default_min_chunk_size)
      { queue := [{ bytes := [97, 98, 99], flushed := false },
                  { bytes := [10], flushed := false },
                  { bytes := [100, 101], flushed := false },
                  { bytes := [10], flushed := false }],
        buffered_bytes := 7, max_buffered_bytes := 1048576, min_chunk_size := 65536,
        status := PipeStatus.OPEN, cursor := 0 }
      (by decide)).1.trans (by decide),
   by decide⟩

/-- C10: line-mode framing round trip.  Payloads are copied verbatim, so for every list of
messages none of which contains the newline byte, pushed with `append_with_line_delimiter`
onto an empty FIFO pipe with every call succeeding, splitting the delivered stream at the
newline bytes and dropping the final empty piece gives back the list of messages, in
order; hence two such lists that produce the same stream are equal.  A message that
contains a newline is not told apart from several messages: `[a, "\n", b]` as one message
and the two messages `[a]`, `[b]` produce the same stream. -/
theorem line_framing_round_trip {σ : Type}
    (base : StreamLoadPipeReader σ) (delivered : σ → List Byte)
    (hfifo : DeliversInOrder base delivered) (msgs : List (List Byte)) (s s1 : σ)
    (hempty : delivered s = []) (hrun : append_lines base msgs s = some s1)
    (hnl : ∀ m ∈ msgs, newline ∉ m) :
    split_lines (delivered s1) = msgs ∧
    (∀ (msgs2 : List (List Byte)) (t t1 : σ), delivered t = [] →
      append_lines base msgs2 t = some t1 → (∀ m ∈ msgs2, newline ∉ m) →
      delivered t1 = delivered s1 → msgs2 = msgs) ∧
    (∀ (a b : Byte) (t t1 t2 : σ),
      append_lines base [[a, newline, b]] t = some t1 →
      append_lines base [[a], [b]] t = some t2 →
      delivered t1 = delivered t2 ∧ [[a, newline, b]] ≠ [[a], [b]]) := by
  have hs1 : delivered s1 = line_framed msgs := by
    rw [append_lines_delivered base delivered hfifo msgs s s1 hrun, hempty, List.nil_append]
  refine ⟨?_, ?_, ?_⟩
  · rw [hs1, split_lines_line_framed msgs hnl]
  · intro msgs2 t t1 ht hrun2 hnl2 heq
    have ht1 : delivered t1 = line_framed msgs2 := by
      rw [append_lines_delivered base delivered hfifo msgs2 t t1 hrun2, ht,
        List.nil_append]
    rw [← split_lines_line_framed msgs2 hnl2, ← ht1, heq, hs1,
      split_lines_line_framed msgs hnl]
  · intro a b t t1 t2 h1 h2
    refine ⟨?_, by simp⟩
    rw [append_lines_delivered base delivered hfifo _ t t1 h1,
      append_lines_delivered base delivered hfifo _ t t2 h2]
    simp [line_framed, line_delimiter]

/-- Witness of C10: `"abc"` then `"de"` on a fresh reader: the stream `"abc\nde\n"` splits
back into the two messages; and on the same reader the message `"a\nb"` and the two
messages `"a"`, `"b"` both succeed and leave the same stream. -/
theorem line_framing_round_trip_witness :
    split_lines (BufferedPipe.stream
        { queue := [{ bytes := [97, 98, 99], flushed := false },
                    { bytes := [10], flushed := false },
                    { bytes := [100, 101], flushed := false },
                    { bytes := [10], flushed := false }],
          buffered_bytes := 7, max_buffered_bytes := 64, min_chunk_size := 8,
          status := PipeStatus.OPEN, cursor := 0 })
      = [[97, 98, 99], [100, 101]] ∧
    (append_lines streaming [[97, 10, 98]] (KafkaConsumerPipeReader.create 64 8)).map
        BufferedPipe.stream = some [97, 10, 98, 10] ∧
    (append_lines streaming [[97], [98]] (KafkaConsumerPipeReader.create 64 8)).map
        BufferedPipe.stream = some [97, 10, 98, 10] :=
  ⟨(line_framing_round_trip streaming BufferedPipe.stream streaming_deliversInOrder
      [[97, 98, 99], [100, 101]] (KafkaConsumerPipeReader.create 64 8)
      { queue := [{ bytes := [97, 98, 99], flushed := false },
                  { bytes := [10], flushed := false },
                  { bytes := [100, 101], flushed := false },
                  { bytes := [10], flushed := false }],
        buffered_bytes := 7, max_buffered_bytes := 64, min_chunk_size := 8,
        status := PipeStatus.OPEN, cursor := 0 }
      (by decide) (by decide) (by decide)).1,
   by decide, by decide⟩

/-- C5: flush-mode framing.  On a fresh reader, for every `max_buffered_bytes`, every
`min_chunk_size` and any two messages `M1`, `M2` whose lengths together fit the buffer
bound, `append_json(M1)` then `append_json(M2)` both return ok, and a consumer that then
reads exactly `len(M1)` bytes and then exactly `len(M2)` bytes receives `M1` and then
`M2`, which empties the pipe: no byte crosses the boundary (a first read with a longer
buffer still receives `M1` and nothing of `M2`). -/
theorem append_json_flush_framing (max_buffered_bytes min_chunk_size : Nat)
    (M1 M2 : List Byte) (hfit : M1.length + M2.length ≤ max_buffered_bytes) :
    ∃ p1 p2 p3 p4 : BufferedPipe,
      KafkaConsumerPipeReader.append_json streaming M1
          (KafkaConsumerPipeReader.create max_buffered_bytes min_chunk_size)
        = some (Status.OK, p1) ∧
      KafkaConsumerPipeReader.append_json streaming M2 p1 = some (Status.OK, p2) ∧
      BufferedPipe.read_at 0 M1.length p2 = some ((Status.OK, M1), p3) ∧
      BufferedPipe.read_at M1.length M2.length p3 = some ((Status.OK, M2), p4) ∧
      p4.queue = [] ∧
      (∀ n : Nat, M1.length ≤ n →
        BufferedPipe.read_at 0 n p2 = some ((Status.OK, M1), p3)) := by
  have h1 : ¬ (M1.length > max_buffered_bytes) := by omega
  have h2 : ¬ (M1.length + M2.length > max_buffered_bytes) := by omega
  refine ⟨
    { queue := [{ bytes := M1, flushed := true }], buffered_bytes := M1.length,
      max_buffered_bytes := max_buffered_bytes, min_chunk_size := min_chunk_size,
      status := PipeStatus.OPEN, cursor := 0 },
    { queue := [{ bytes := M1, flushed := true }, { bytes := M2, flushed := true }],
      buffered_bytes := M1.length + M2.length,
      max_buffered_bytes := max_buffered_bytes, min_chunk_size := min_chunk_size,
      status := PipeStatus.OPEN, cursor := 0 },
    { queue := [{ bytes := M2, flushed := true }], buffered_bytes := M2.length,
      max_buffered_bytes := max_buffered_bytes, min_chunk_size := min_chunk_size,
      status := PipeStatus.OPEN, cursor := M1.length },
    { queue := [], buffered_bytes := 0,
      max_buffered_bytes := max_buffered_bytes, min_chunk_size := min_chunk_size,
      status := PipeStatus.OPEN, cursor := M1.length + M2.length },
    ?_, ?_, ?_, ?_, rfl, ?_⟩
  · simp [KafkaConsumerPipeReader.append_json, streaming, BufferedPipe.append_and_flush,
      BufferedPipe.enqueue, KafkaConsumerPipeReader.create, BufferedPipe.create, h1]
  · simp [KafkaConsumerPipeReader.append_json, streaming, BufferedPipe.append_and_flush,
      BufferedPipe.enqueue, h2]
  · simp [BufferedPipe.read_at, BufferedPipe.drain]
  · simp [BufferedPipe.read_at, BufferedPipe.drain]
  · intro n hn
    simp [BufferedPipe.read_at, BufferedPipe.drain, hn]

/-- Witness of C5: a 10-byte and a 6-byte message on a reader with the default sizes, where
`min_chunk_size` (65536) is far above both lengths. -/
theorem append_json_flush_framing_witness :
    [(1 : Byte), 2, 3, 4, 5, 6, 7, 8, 9, 10].length
        + [(11 : Byte), 12, 13, 14, 15, 16].length ≤ 1048576 ∧
    ∃ p1 p2 p3 p4 : BufferedPipe,
      KafkaConsumerPipeReader.append_json streaming [1, 2, 3, 4, 5, 6, 7, 8, 9, 10]
          (KafkaConsumerPipeReader.create 1048576 65536)
        = some (Status.OK, p1) ∧
      KafkaConsumerPipeReader.append_json streaming [11, 12, 13, 14, 15, 16] p1
        = some (Status.OK, p2) ∧
      BufferedPipe.read_at 0 [(1 : Byte), 2, 3, 4, 5, 6, 7, 8, 9, 10].length p2
        = some ((Status.OK, [1, 2, 3, 4, 5, 6, 7, 8, 9, 10]), p3) ∧
      BufferedPipe.read_at [(1 : Byte), 2, 3, 4, 5, 6, 7, 8, 9, 10].length
          [(11 : Byte), 12, 13, 14, 15, 16].length p3
        = some ((Status.OK, [11, 12, 13, 14, 15, 16]), p4) ∧
      p4.queue = [] ∧
      (∀ n : Nat, [(1 : Byte), 2, 3, 4, 5, 6, 7, 8, 9, 10].length ≤ n →
        BufferedPipe.read_at 0 n p2
          = some ((Status.OK, [1, 2, 3, 4, 5, 6, 7, 8, 9, 10]), p3)) :=
  ⟨by decide,
   append_json_flush_framing 1048576 65536 [1, 2, 3, 4, 5, 6, 7, 8, 9, 10]
     [11, 12, 13, 14, 15, 16] (by decide)⟩

/-! ## `BrokerFileReader` -/

/-- C6, as amended: a freshly constructed reader has `_closed = false`; for every `N >= 1`,
calling `close()` `N` times on an open reader sends the release-handle request exactly
once; the first call returns the status of that release and the `N - 1` later calls return
success; the reader ends closed, and after any `close()` the flag `_closed` is true, so a
later `close()` never resets it. -/
theorem close_n_releases_once (broker : BrokerService) (r : BrokerFileReader)
    (log : List BrokerRpc) (N : Nat) (hN : 1 ≤ N) (hopen : r._closed = false) :
    BrokerFileReader.close_n broker N (r, log)
      = (broker.release r._fd :: List.replicate (N - 1) Status.OK,
         { r with _closed := true }, log ++ [BrokerRpc.release r._fd]) ∧
    (∀ (addr : TNetworkAddress) (path : Path) (file_size : Nat) (fd : TBrokerFD)
        (fs : Nat), (BrokerFileReader.create addr path file_size fd fs).closed = false) ∧
    (∀ (r1 : BrokerFileReader) (log1 : List BrokerRpc),
        (BrokerFileReader.close broker (r1, log1)).2.1.closed = true) := by
  refine ⟨?_, fun _ _ _ _ _ => rfl, ?_⟩
  · obtain ⟨n, rfl⟩ : ∃ n, N = n + 1 := ⟨N - 1, by omega⟩
    simp only [BrokerFileReader.close_n, BrokerFileReader.close, hopen, Bool.false_eq_true,
      if_false, Nat.add_sub_cancel]
    rw [BrokerFileReader.close_n_closed broker n _ _ rfl]
  · intro r1 log1
    unfold BrokerFileReader.close BrokerFileReader.closed
    split
    · assumption
    · rfl

/-- Witness of C6: three calls of `close()` on the sample reader, with a broker that
releases handles. -/
theorem close_n_releases_once_witness :
    BrokerFileReader.close_n zero_broker 3 (sample_reader, [])
      = ([Status.OK, Status.OK, Status.OK], { sample_reader with _closed := true },
         [BrokerRpc.release { high := 0, low := 7 }]) :=
  (close_n_releases_once zero_broker sample_reader [] 3 (by decide) (by decide)).1

/-- Counterexample to C6 as stated: when the broker cannot be reached, the first of two
`close()` calls on a fresh reader returns `NetworkError`, so not all calls return
success (the release request is still sent once). -/
theorem close_n_first_call_can_fail :
    sample_reader.closed = false ∧
    BrokerFileReader.close_n unreachable_broker 2 (sample_reader, [])
      = ([Status.Error ErrorCode.NetworkError, Status.OK],
         { sample_reader with _closed := true },
         [BrokerRpc.release { high := 0, low := 7 }]) ∧
    ¬ (∀ st ∈ (BrokerFileReader.close_n unreachable_broker 2 (sample_reader, [])).1,
        st.ok = true) := by
  refine ⟨rfl, by decide, ?_⟩
  intro h
  exact absurd (h (Status.Error ErrorCode.NetworkError) (by decide)) (by decide)

/-- C7, as amended: for every open reader of size `S`: if `offset >= S`, `read_at` returns
0 bytes with success and sends no request; otherwise it sends exactly one remote read, for
`min(length, S - offset)` bytes, and `bytes_read` is at most `min(length, S - offset)`:
the call returns the bytes the broker returned, or the broker's error with 0 bytes. -/
theorem read_at_open_reader (broker : BrokerService) (r : BrokerFileReader)
    (log : List BrokerRpc) (offset length : Nat) (hopen : r._closed = false) :
    (r.size ≤ offset →
      BrokerFileReader.read_at broker offset length (r, log) = ((Status.OK, []), log)) ∧
    (offset < r.size →
      (BrokerFileReader.read_at broker offset length (r, log)).2
        = log ++ [BrokerRpc.pread r._fd offset (min length (r.size - offset))] ∧
      (BrokerFileReader.read_at broker offset length (r, log)).1.2.length
        ≤ min length (r.size - offset) ∧
      (∀ bytes : List Byte,
        broker.pread r._fd offset (min length (r.size - offset)) = Except.ok bytes →
        (BrokerFileReader.read_at broker offset length (r, log)).1 = (Status.OK, bytes)) ∧
      (∀ e : ErrorCode,
        broker.pread r._fd offset (min length (r.size - offset)) = Except.error e →
        (BrokerFileReader.read_at broker offset length (r, log)).1
          = (Status.Error e, []))) := by
  constructor
  · intro hge
    simp [BrokerFileReader.read_at, hopen, hge]
  · intro hlt
    have hnot : ¬ (r.size ≤ offset) := Nat.not_le.mpr hlt
    cases hp : broker.pread r._fd offset (min length (r.size - offset)) with
    | ok bytes =>
      have hlen := broker.pread_length _ _ _ _ hp
      simp only [BrokerFileReader.read_at, hopen, Bool.false_eq_true, if_false, ge_iff_le,
        hnot, hp]
      refine ⟨trivial, hlen, fun b hb => ?_, fun e he => ?_⟩
      · rw [Except.ok.injEq] at hb
        rw [hb]
      · exact absurd he (by simp)
    | error e =>
      simp only [BrokerFileReader.read_at, hopen, Bool.false_eq_true, if_false, ge_iff_le,
        hnot, hp]
      refine ⟨trivial, Nat.zero_le _, fun b hb => ?_, fun e1 he => ?_⟩
      · exact absurd hb (by simp)
      · rw [Except.error.injEq] at he
        rw [he]

/-- Witness of C7: the sample reader (100 bytes) and a broker that returns what it is
asked for: a read at offset 100 sends nothing, and a read of 10 bytes at offset 95 sends
one request, for 5 bytes, and reports 5 bytes. -/
theorem read_at_open_reader_witness :
    BrokerFileReader.read_at zero_broker 100 10 (sample_reader, []) = ((Status.OK, []), []) ∧
    (BrokerFileReader.read_at zero_broker 95 10 (sample_reader, [])).2
      = [] ++ [BrokerRpc.pread sample_reader._fd 95 (min 10 (sample_reader.size - 95))] ∧
    (BrokerFileReader.read_at zero_broker 95 10 (sample_reader, [])).1.2.length
      ≤ min 10 (sample_reader.size - 95) ∧
    (BrokerFileReader.read_at zero_broker 95 10 (sample_reader, [])).1
      = (Status.OK, [0, 0, 0, 0, 0]) :=
  have h := read_at_open_reader zero_broker sample_reader [] 95 10 (by decide)
  ⟨(read_at_open_reader zero_broker sample_reader [] 100 10 (by decide)).1 (by decide),
   (h.2 (by decide)).1, (h.2 (by decide)).2.1,
   (h.2 (by decide)).2.2.1 [0, 0, 0, 0, 0] rfl⟩

/-- Counterexample to C7 as stated: on a closed reader of a 100-byte file, `read_at` at
offset 0 (below the size) fails with `AlreadyClosed` and sends no remote read, where the
claim has exactly one remote read, for `min(10, 100 - 0)` bytes. -/
theorem read_at_closed_reader_sends_nothing :
    (BrokerFileReader.close zero_broker (sample_reader, [])).2.1.closed = true ∧
    0 < (BrokerFileReader.close zero_broker (sample_reader, [])).2.1.size ∧
    BrokerFileReader.read_at zero_broker 0 10
        ((BrokerFileReader.close zero_broker (sample_reader, [])).2.1, [])
      = ((Status.Error ErrorCode.AlreadyClosed, []), []) ∧
    ¬ ((BrokerFileReader.read_at zero_broker 0 10
          ((BrokerFileReader.close zero_broker (sample_reader, [])).2.1, [])).2
        = [] ++ [BrokerRpc.pread sample_reader._fd 0 (min 10 (sample_reader.size - 0))]) := by
  decide

/-- C8: `path()`, `size()` and `closed()` are pure observers: called on any reader they
return the stored path, the stored file size and the current flag, and the reader after
the call is the reader before it; the results of `path()` and `size()` are the same
whatever the value of the flag `_closed`. -/
theorem observers_pure (r : BrokerFileReader) (flag : Bool) :
    BrokerFileReader.observe BrokerFileReader.path r = (r._path, r) ∧
    BrokerFileReader.observe BrokerFileReader.size r = (r._file_size, r) ∧
    BrokerFileReader.observe BrokerFileReader.closed r = (r._closed, r) ∧
    BrokerFileReader.path { r with _closed := flag } = BrokerFileReader.path r ∧
    BrokerFileReader.size { r with _closed := flag } = BrokerFileReader.size r :=
  ⟨rfl, rfl, rfl, rfl, rfl⟩

end io
end doris
